import Mathlib

/-!
Verification of the pure decision logic of the ethereum-testing-tools scripts.

Each definition is a shallow embedding of a function from the repository:
  - `scripts/send_blob_transactions.py` (Osaka blob transaction script)
  - `scripts/transfer_eth.py` (ETH transfer with retry logic)
  - `scripts/send_transactions.py` (plain transaction script)
  - `scripts/consolidation.py` (validator consolidation script)
  - `scripts/generate_account.py` (account generation)

External library calls (web3 RPC, ckzg, hashlib, secrets) are modelled as
explicit oracle parameters; everything the scripts themselves compute is
translated directly.  Python integers are `Int` (argparse `type=int` may be
negative), byte strings are `List Nat`, and a raised `ValueError` is the
`Except.error` branch of `Except String _`.
-/

set_option maxHeartbeats 1000000

namespace EthTools

/-- Raised-or-not view of a Python function that may raise `ValueError`. -/
def raises (e : Except String Unit) : Bool :=
  match e with
  | .ok _ => false
  | .error _ => true

/-! ## Osaka fork constants (send_blob_transactions.py lines 34-38) -/

def OSAKA_MAX_BLOBS_PER_TX : Int := 6

def OSAKA_BLOB_SIZE_BYTES : Nat := 131072

/-- The single prefix byte of `OSAKA_VERSIONED_HASH_PREFIX = b'\x01'`. -/
def OSAKA_VERSIONED_HASH_PREFIX_BYTE : Nat := 1

def OSAKA_GAS_LIMIT_CAP : Int := 2 ^ 24

/-! ## validate_osaka_params (send_blob_transactions.py lines 45-96)

The Python function runs five `if` checks in order and raises `ValueError`
at the first one that fires; otherwise it returns `None`. -/

def validate_osaka_params (tx_type : String) (value : Int) (number_of_blobs : Int)
    (gas_limit : Option Int) : Except String Unit :=
  if number_of_blobs > 0 ∧ tx_type ≠ "0x3" then
    .error "Blob transactions require type 0x3"
  else if number_of_blobs > 0 ∧ value ≠ 0 then
    .error "Blob transactions must have value=0"
  else if number_of_blobs > OSAKA_MAX_BLOBS_PER_TX then
    .error "Osaka fork allows max 6 blobs per transaction"
  else if number_of_blobs < 1 then
    .error "Must include at least 1 blob for blob transactions"
  else
    match gas_limit with
    | some g => if g > OSAKA_GAS_LIMIT_CAP then .error "Gas limit exceeds Osaka fork cap" else .ok ()
    | none => .ok ()

/-- The `choices` list of the `--tx-type` argument (parse_args, line 151). -/
def tx_type_choices : List String := ["0x2", "0x3"]

/-! ## validate_blob_data (send_blob_transactions.py lines 99-118)

Enumerates the blobs with their index and raises at the first blob whose
length differs from `OSAKA_BLOB_SIZE_BYTES`. -/

def validate_blob_data_from (i : Nat) : List (List Nat) → Except String Unit
  | [] => .ok ()
  | blob :: rest =>
    if blob.length ≠ OSAKA_BLOB_SIZE_BYTES then
      .error "Blob size doesnt match Osaka requirement"
    else
      validate_blob_data_from (i + 1) rest

def validate_blob_data (blobs : List (List Nat)) : Except String Unit :=
  validate_blob_data_from 0 blobs

/-! ## prepare_blobs (send_blob_transactions.py lines 164-196) -/

/-- Python `int.to_bytes(width, 'big')`: big-endian byte list of fixed width. -/
def toBytesBE : Nat → Nat → List Nat
  | 0, _ => []
  | width + 1, v => toBytesBE width (v / 256) ++ [v % 256]

/-- Integer value of a big-endian byte list (inverse view of `toBytesBE`). -/
def fromBytesBE (l : List Nat) : Nat :=
  l.foldl (fun acc b => acc * 256 + b) 0

/-- BLS12-381 scalar field modulus, as quoted in the comment of `prepare_blobs`. -/
def bls_modulus : Nat :=
  52435875175126190479447740508185965837690552500527637822603658699938581184513

/-- `valid_field_element` of `prepare_blobs`: the 32-byte big-endian encoding
of `0x0123456789abcdef0123456789abcdef0123456789abcdef0123456789abcdef`. -/
def valid_field_element : List Nat :=
  toBytesBE 32 0x0123456789abcdef0123456789abcdef0123456789abcdef0123456789abcdef

/-- `blob_data = valid_field_element * 4096`: 4096 concatenated copies. -/
def blob_data : List Nat :=
  (List.replicate 4096 valid_field_element).flatten

def prepare_blobs (number_of_blobs : Nat) : List (List Nat) :=
  List.replicate number_of_blobs blob_data

/-! ## compute_versioned_hashes (send_blob_transactions.py lines 199-231)

`ckzg.blob_to_kzg_commitment` (under the loaded trusted setup) and
`hashlib.sha256(...).digest()` are external library functions; they are
passed in as oracles.  For each blob the script computes
`OSAKA_VERSIONED_HASH_PREFIX + sha256(commitment).digest()[1:]`. -/

def compute_versioned_hashes (blob_to_kzg_commitment : List Nat → List Nat)
    (sha256 : List Nat → List Nat) (blobs : List (List Nat)) : List (List Nat) :=
  blobs.map (fun blob =>
    OSAKA_VERSIONED_HASH_PREFIX_BYTE :: (sha256 (blob_to_kzg_commitment blob)).drop 1)

/-! ## construct_blob_transaction (send_blob_transactions.py lines 238-304)

RPC results are oracles: `remote_nonce` is `w3.eth.get_transaction_count`,
`estimate_gas` is `w3.eth.estimate_gas` (`none` when the call raised).
Python truthiness of `args.gas_limit` (`if args.gas_limit:`) is false for
both `None` and `0`. -/

def truthy : Option Int → Bool
  | none => false
  | some v => v != 0

structure BlobTx where
  type : Nat
  chainId : Nat
  fromAddr : String
  toAddr : String
  value : Int
  data : List Nat
  maxFeePerGas : Int
  maxPriorityFeePerGas : Int
  maxFeePerBlobGas : Int
  nonce : Nat
  gas : Int
  deriving Repr, DecidableEq

def construct_blob_transaction (chainId : Nat) (fromAddr toAddr : String)
    (value gas_price : Int) (nonce_arg : Option Nat) (remote_nonce : Nat)
    (gas_limit : Option Int) (estimate_gas : Option Int) : BlobTx :=
  let gas0 : Int :=
    if truthy gas_limit then gas_limit.getD 0
    else match estimate_gas with
      | some g => g
      | none => 1000000
  { type := 3
    chainId := chainId
    fromAddr := fromAddr
    toAddr := toAddr
    value := value
    data := []
    maxFeePerGas := gas_price
    maxPriorityFeePerGas := gas_price
    maxFeePerBlobGas := gas_price
    nonce := nonce_arg.getD remote_nonce
    gas := if gas0 > OSAKA_GAS_LIMIT_CAP then OSAKA_GAS_LIMIT_CAP else gas0 }

/-! ## send_transaction gas selection (send_transactions.py lines 58-68)

Same truthiness test on `args.gas_limit`; the estimation fallback is 21000
and there is no cap. -/

def send_transaction_gas (gas_limit : Option Int) (estimate_gas : Option Int) : Int :=
  if truthy gas_limit then gas_limit.getD 0
  else match estimate_gas with
    | some g => g
    | none => 21000

/-! ## send_consolidation_transaction (consolidation.py lines 62-119)

The function builds `tx_data = '0x' + validator_pubkey + target_pubkey`,
strips the prefix back off, computes `total_bytes = len(data) // 2` and
raises before signing when `total_bytes != 96`; otherwise it signs and
submits the transaction carrying `tx_data`.  Pubkey strings are lists of
characters; the `Except.ok` payload is the data the signed transaction
carries. -/

def remove_0x_prefix (s : List Char) : List Char :=
  if s.take 2 = ['0', 'x'] then s.drop 2 else s

def send_consolidation_transaction (validator_pubkey target_pubkey : List Char) :
    Except String (List Char) :=
  let tx_data : List Char := '0' :: 'x' :: (validator_pubkey ++ target_pubkey)
  let data_without_prefix := remove_0x_prefix tx_data
  let total_bytes := data_without_prefix.length / 2
  if total_bytes ≠ 96 then
    .error "Invalid total transaction data length"
  else
    .ok tx_data

/-! ## get_transaction_counts (transfer_eth.py lines 34-74)

The four RPC nonce queries are inputs: `latest` and `pending` from the
standard API, `latest_direct` and `pending_direct` from raw requests
(`none` when the response has no result field).  The function collects
them into `all_nonces` and returns the maximum. -/

def list_max : List Nat → Nat
  | [] => 0
  | x :: xs => max x (list_max xs)

def gathered_nonces (latest pending : Nat) (latest_direct pending_direct : Option Nat) :
    List Nat :=
  [latest, pending] ++ latest_direct.toList ++ pending_direct.toList

def get_transaction_counts (latest pending : Nat)
    (latest_direct pending_direct : Option Nat) : Nat :=
  list_max (gathered_nonces latest pending latest_direct pending_direct)

/-! ## transfer_eth starting nonce (transfer_eth.py lines 137-153)

If pending exceeds latest, the user is asked whether to cancel; on yes the
pending transactions are cancelled and the nonce is re-fetched
(`fresh_latest`), on no the pending count is used; otherwise the latest
count is used. -/

def choose_start_nonce (latest pending : Nat) (cancel_response_yes : Bool)
    (fresh_latest : Nat) : Nat :=
  if pending > latest then
    if cancel_response_yes then fresh_latest else pending
  else latest

/-! ## transfer_eth retry loop (transfer_eth.py lines 155-221)

One loop iteration signs and submits the transaction with the current
nonce and waits for its receipt.  The per-attempt chain behaviour is an
oracle `AttemptSpec`:

  - `res = waited (some st)`: submission succeeded and the 30 s wait
    returned a receipt with status `st` (a status other than 1 raises
    `Exception("Transaction failed or timed out")`, handled generically);
  - `res = waited none`: submission succeeded but the wait raised
    (timeout), handled generically;
  - `res = sendErr k`: `send_raw_transaction` raised, with the message
    classified by the two substring tests of the handler
    (`nonce too low` / `already known` or `known transaction` / other);
  - `knownWait`: when the `already known` handler re-waits on the last
    sent hash, the receipt status it obtains (`none` = that wait raised);
  - `freshNonce`: the `get_transaction_count(latest)` value a retry path
    refreshes the nonce to.

The trace records the observable actions: each submission attempt with its
nonce, each `time.sleep(5)`, and each nonce refresh. -/

inductive ErrKind
  | nonceTooLow
  | alreadyKnown
  | other
  deriving Repr, DecidableEq

inductive AttemptRes
  | sendErr (k : ErrKind)
  | waited (status : Option Nat)
  deriving Repr, DecidableEq

structure AttemptSpec where
  res : AttemptRes
  knownWait : Option Nat
  freshNonce : Nat
  deriving Repr, DecidableEq

inductive Ev
  | send (nonce : Nat)
  | sleep5
  | refreshNonce (n : Nat)
  deriving Repr, DecidableEq

/-- The common tail of the exception handler: on a non-final attempt it
sleeps 5 seconds, refreshes the nonce and continues; on the final attempt
it returns `None`. -/
def genericRetry (s : AttemptSpec) (lastHash : Bool) (isLast : Bool) :
    List Ev × (Option Nat ⊕ Nat × Bool) :=
  if isLast then ([], Sum.inl none)
  else ([Ev.sleep5, Ev.refreshNonce s.freshNonce], Sum.inr (s.freshNonce, lastHash))

/-- Everything one loop iteration does after submitting: `Sum.inl r` means
the function returns `r`, `Sum.inr (n, lh)` means the loop continues with
nonce `n` and last-hash flag `lh`. -/
def runAttemptRest (s : AttemptSpec) (lastHash isLast : Bool) :
    List Ev × (Option Nat ⊕ Nat × Bool) :=
  match s.res with
  | .waited (some st) =>
    if st = 1 then ([], Sum.inl (some st)) else genericRetry s true isLast
  | .waited none => genericRetry s true isLast
  | .sendErr .nonceTooLow =>
    ([Ev.refreshNonce s.freshNonce],
      if isLast then Sum.inl none else Sum.inr (s.freshNonce, lastHash))
  | .sendErr .alreadyKnown =>
    if lastHash then
      match s.knownWait with
      | some st =>
        if st = 1 then ([], Sum.inl (some st)) else genericRetry s lastHash isLast
      | none => genericRetry s lastHash isLast
    else genericRetry s lastHash isLast
  | .sendErr .other => genericRetry s lastHash isLast

def runAttempt (s : AttemptSpec) (nonce : Nat) (lastHash isLast : Bool) :
    List Ev × (Option Nat ⊕ Nat × Bool) :=
  (Ev.send nonce :: (runAttemptRest s lastHash isLast).1,
    (runAttemptRest s lastHash isLast).2)

def transfer_eth_loop : List AttemptSpec → Nat → Bool → List Ev × Option Nat
  | [], _, _ => ([], none)
  | s :: rest, nonce, lastHash =>
    match runAttempt s nonce lastHash rest.isEmpty with
    | (evs, Sum.inl r) => (evs, r)
    | (evs, Sum.inr (n2, lh2)) =>
      (evs ++ (transfer_eth_loop rest n2 lh2).1, (transfer_eth_loop rest n2 lh2).2)

/-- `transfer_eth`'s retry loop, run from the starting nonce with
`max_retries = specs.length` and no transaction hash sent yet. -/
def transfer_eth (specs : List AttemptSpec) (start_nonce : Nat) : List Ev × Option Nat :=
  transfer_eth_loop specs start_nonce false

def countSends (evs : List Ev) : Nat :=
  (evs.filter (fun e => match e with | Ev.send _ => true | _ => false)).length

/-- An attempt whose oracle can never produce a status-1 receipt. -/
def attemptFails (s : AttemptSpec) : Bool :=
  (match s.res with | .waited (some 1) => false | _ => true) &&
  (match s.res, s.knownWait with
    | .sendErr .alreadyKnown, some 1 => false
    | _, _ => true)

/-! ## generate_account.py (lines 15-48)

`secrets.token_hex(32)` hex-encodes 32 random bytes; the random bytes and
the address derivation (`Account.from_key(...).address`) are oracles.  A
Python dict literal is a key-value list. -/

def hexChar (n : Nat) : Char :=
  if n < 10 then Char.ofNat (48 + n) else Char.ofNat (87 + n)

def byteToHexChars (b : Fin 256) : List Char :=
  [hexChar (b.val / 16), hexChar (b.val % 16)]

def token_hex (bytes : List (Fin 256)) : List Char :=
  (bytes.map byteToHexChars).flatten

def isHexDigitChar (c : Char) : Bool :=
  c.isDigit || ('a' ≤ c && c ≤ 'f')

def generate_ethereum_account (random_bytes : List (Fin 256))
    (derive_address : List Char → String) : List (String × String) :=
  let private_key : List Char := '0' :: 'x' :: token_hex random_bytes
  [("private_key", String.mk private_key),
   ("public_key", derive_address private_key)]

def generate_multiple_accounts (num_accounts : Nat) (rand : Nat → List (Fin 256))
    (derive_address : List Char → String) : List (List (String × String)) :=
  (List.range num_accounts).map (fun i => generate_ethereum_account (rand i) derive_address)

/-! ## Helper lemmas -/

theorem getD_map_of_lt {α β : Type} (f : α → β) (d : β) (d2 : α) :
    ∀ (l : List α) (i : Nat), i < l.length → (l.map f).getD i d = f (l.getD i d2)
  | a :: _, 0, _ => rfl
  | _ :: l, i + 1, h => getD_map_of_lt f d d2 l i (by simpa using h)

theorem list_max_le_of_mem (l : List Nat) (x : Nat) (hx : x ∈ l) : x ≤ list_max l := by
  induction l with
  | nil => cases hx
  | cons a rest ih =>
    rcases List.mem_cons.mp hx with rfl | hmem
    · exact le_max_left _ _
    · exact le_trans (ih hmem) (le_max_right _ _)

theorem list_max_mem (l : List Nat) (h : l ≠ []) : list_max l ∈ l := by
  induction l with
  | nil => exact absurd rfl h
  | cons a rest ih =>
    show max a (list_max rest) ∈ a :: rest
    rcases max_choice a (list_max rest) with hm | hm
    · rw [hm]; exact List.mem_cons_self a rest
    · rw [hm]
      rcases rest with _ | ⟨b, rest2⟩
      · have ha : a = 0 := by simpa [list_max] using hm
        simp [list_max, ha]
      · exact List.mem_cons_of_mem _ (ih (by simp))

theorem valid_field_element_length : valid_field_element.length = 32 := by decide

theorem gas_cap_le (x : Int) :
    (if x > OSAKA_GAS_LIMIT_CAP then OSAKA_GAS_LIMIT_CAP else x) ≤ 2 ^ 24 := by
  split_ifs with h
  · norm_num [OSAKA_GAS_LIMIT_CAP]
  · simpa [OSAKA_GAS_LIMIT_CAP] using le_of_not_lt h

theorem blob_data_length : blob_data.length = 131072 := by
  rw [blob_data, List.length_flatten, List.map_replicate, List.sum_replicate,
    valid_field_element_length, smul_eq_mul]

theorem validate_blob_data_from_ok (blobs : List (List Nat)) : ∀ i,
    (validate_blob_data_from i blobs = .ok () ↔ ∀ b ∈ blobs, b.length = 131072) := by
  induction blobs with
  | nil => intro i; simp [validate_blob_data_from]
  | cons b rest ih =>
    intro i
    unfold validate_blob_data_from
    split_ifs with h
    · constructor
      · intro hc; exact absurd hc (by simp)
      · intro hall
        exact absurd (hall b (List.mem_cons_self b rest))
          (by simpa [OSAKA_BLOB_SIZE_BYTES] using h)
    · rw [ih (i + 1)]
      constructor
      · intro hall b2 hb2
        rcases List.mem_cons.mp hb2 with rfl | hmem
        · simpa [OSAKA_BLOB_SIZE_BYTES] using h
        · exact hall b2 hmem
      · intro hall b2 hb2
        exact hall b2 (List.mem_cons_of_mem _ hb2)

/-! ## Claim theorems -/

/-- C1: `compute_versioned_hashes` returns exactly one versioned hash per input
blob, in the same order; each hash is 32 bytes long and equals the byte `0x01`
followed by bytes 1..31 of the SHA-256 digest of the blob's KZG commitment
(given that SHA-256 digests are 32 bytes long). -/
theorem claim_C1_versioned_hashes
    (blob_to_kzg_commitment sha256 : List Nat → List Nat)
    (hsha : ∀ c, (sha256 c).length = 32) (blobs : List (List Nat)) :
    (compute_versioned_hashes blob_to_kzg_commitment sha256 blobs).length = blobs.length ∧
    ∀ i, i < blobs.length →
      (compute_versioned_hashes blob_to_kzg_commitment sha256 blobs).getD i [] =
        OSAKA_VERSIONED_HASH_PREFIX_BYTE ::
          (sha256 (blob_to_kzg_commitment (blobs.getD i []))).drop 1 ∧
      ((compute_versioned_hashes blob_to_kzg_commitment sha256 blobs).getD i []).length
        = 32 := by
  refine ⟨by simp [compute_versioned_hashes], fun i hi => ?_⟩
  have h := getD_map_of_lt
    (fun blob => OSAKA_VERSIONED_HASH_PREFIX_BYTE ::
      (sha256 (blob_to_kzg_commitment blob)).drop 1) [] [] blobs i hi
  refine ⟨h, ?_⟩
  rw [show compute_versioned_hashes blob_to_kzg_commitment sha256 blobs =
    blobs.map (fun blob => OSAKA_VERSIONED_HASH_PREFIX_BYTE ::
      (sha256 (blob_to_kzg_commitment blob)).drop 1) from rfl, h]
  simp [hsha]

/-- C1 witness: the theorem applied to identity commitments and a concrete
32-byte digest function on a single empty blob. -/
theorem claim_C1_witness :
    (compute_versioned_hashes id (fun _ => List.range 32) [[]]).length = 1 :=
  (claim_C1_versioned_hashes id (fun _ => List.range 32) (fun _ => by simp) [[]]).1

/-- C2: `validate_osaka_params` raises `ValueError` if and only if at least one
of the five Osaka conditions is violated, and returns normally otherwise. -/
theorem claim_C2_validate_osaka_params (tx_type : String) (value number_of_blobs : Int)
    (gas_limit : Option Int) :
    raises (validate_osaka_params tx_type value number_of_blobs gas_limit) = true ↔
      ((number_of_blobs > 0 ∧ tx_type ≠ "0x3") ∨
       (number_of_blobs > 0 ∧ value ≠ 0) ∨
       number_of_blobs > 6 ∨
       number_of_blobs < 1 ∨
       (∃ g, gas_limit = some g ∧ g > 2 ^ 24)) := by
  unfold validate_osaka_params OSAKA_MAX_BLOBS_PER_TX OSAKA_GAS_LIMIT_CAP
  rcases gas_limit with _ | g
  · split_ifs with h1 h2 h3 h4
    · simp only [raises, true_iff]; exact Or.inl h1
    · simp only [raises, true_iff]; exact Or.inr (Or.inl h2)
    · simp only [raises, true_iff]; exact Or.inr (Or.inr (Or.inl h3))
    · simp only [raises, true_iff]; exact Or.inr (Or.inr (Or.inr (Or.inl h4)))
    · constructor
      · intro hc; exact absurd hc (by simp [raises])
      · rintro (h | h | h | h | ⟨g, hsome, _⟩)
        · exact absurd h h1
        · exact absurd h h2
        · exact absurd h h3
        · exact absurd h h4
        · cases hsome
  · dsimp only
    by_cases hg : (2 : Int) ^ 24 < g
    · split_ifs with h1 h2 h3 h4
      · simp only [raises, true_iff]; exact Or.inl h1
      · simp only [raises, true_iff]; exact Or.inr (Or.inl h2)
      · simp only [raises, true_iff]; exact Or.inr (Or.inr (Or.inl h3))
      · simp only [raises, true_iff]; exact Or.inr (Or.inr (Or.inr (Or.inl h4)))
      · simp only [if_pos hg, raises, true_iff]
        exact Or.inr (Or.inr (Or.inr (Or.inr ⟨g, rfl, hg⟩)))
    · split_ifs with h1 h2 h3 h4
      · simp only [raises, true_iff]; exact Or.inl h1
      · simp only [raises, true_iff]; exact Or.inr (Or.inl h2)
      · simp only [raises, true_iff]; exact Or.inr (Or.inr (Or.inl h3))
      · simp only [raises, true_iff]; exact Or.inr (Or.inr (Or.inr (Or.inl h4)))
      · constructor
        · intro hc; exact absurd hc (by simp [raises])
        · rintro (h | h | h | h | ⟨g2, hsome, hgt⟩)
          · exact absurd h h1
          · exact absurd h h2
          · exact absurd h h3
          · exact absurd h h4
          · rw [Option.some.injEq] at hsome
            exact absurd (hsome ▸ hgt) hg

/-- C3: `prepare_blobs n` returns exactly `n` blobs, each 131072 bytes and equal
to 4096 concatenated copies of one 32-byte big-endian field element whose value
is below the BLS12-381 modulus; `validate_blob_data` accepts exactly the blob
lists whose every blob is 131072 bytes long. -/
theorem claim_C3_prepare_and_validate_blobs (n : Nat) :
    (prepare_blobs n).length = n ∧
    (∀ b, b ∈ prepare_blobs n →
      b.length = 131072 ∧ b = (List.replicate 4096 valid_field_element).flatten) ∧
    valid_field_element.length = 32 ∧
    fromBytesBE valid_field_element < bls_modulus ∧
    (∀ blobs : List (List Nat),
      validate_blob_data blobs = .ok () ↔ ∀ b ∈ blobs, b.length = 131072) := by
  refine ⟨by simp [prepare_blobs], ?_, valid_field_element_length, by decide,
    fun blobs => validate_blob_data_from_ok blobs 0⟩
  intro b hb
  rw [List.eq_of_mem_replicate hb]
  exact ⟨blob_data_length, rfl⟩

/-- C3 witness: the theorem applied at two blobs; the produced blob has the
Osaka size, and `validate_blob_data` accepts the empty list. -/
theorem claim_C3_witness :
    blob_data.length = 131072 ∧ validate_blob_data [] = .ok () := by
  refine ⟨((claim_C3_prepare_and_validate_blobs 2).2.1 blob_data ?_).1, ?_⟩
  · exact List.mem_replicate.mpr ⟨by norm_num, rfl⟩
  · exact ((claim_C3_prepare_and_validate_blobs 2).2.2.2.2 []).mpr (by simp)

/-- C4: every transaction built by `construct_blob_transaction` has type 3 and
a gas field of at most 2^24, whatever the gas limit, estimation result and
other inputs are. -/
theorem claim_C4_blob_tx_invariants (chainId : Nat) (fromAddr toAddr : String)
    (value gas_price : Int) (nonce_arg : Option Nat) (remote_nonce : Nat)
    (gas_limit estimate_gas : Option Int) :
    (construct_blob_transaction chainId fromAddr toAddr value gas_price nonce_arg
        remote_nonce gas_limit estimate_gas).type = 3 ∧
    (construct_blob_transaction chainId fromAddr toAddr value gas_price nonce_arg
        remote_nonce gas_limit estimate_gas).gas ≤ 2 ^ 24 := by
  unfold construct_blob_transaction
  refine ⟨rfl, ?_⟩
  dsimp only
  exact gas_cap_le _

theorem countSends_append (a b : List Ev) :
    countSends (a ++ b) = countSends a + countSends b := by
  simp [countSends, List.filter_append]

theorem genericRetry_inl (s : AttemptSpec) (lh isLast : Bool) (r : Option Nat)
    (h : (genericRetry s lh isLast).2 = Sum.inl r) : r = none := by
  unfold genericRetry at h
  split_ifs at h
  exact (Sum.inl.injEq _ _).mp h.symm

theorem genericRetry_no_send (s : AttemptSpec) (lh isLast : Bool) :
    countSends (genericRetry s lh isLast).1 = 0 := by
  unfold genericRetry
  split_ifs <;> simp [countSends]

theorem countSends_cons_send (n : Nat) (l : List Ev) :
    countSends (Ev.send n :: l) = countSends l + 1 := by
  simp [countSends]

theorem runAttemptRest_no_send (s : AttemptSpec) (lastHash isLast : Bool) :
    countSends (runAttemptRest s lastHash isLast).1 = 0 := by
  rcases s with ⟨res, kw, fn⟩
  rcases res with k | st
  · rcases k with _ | _ | _ <;> rcases kw with _ | w <;>
      simp only [runAttemptRest, genericRetry] <;>
      first
        | (split_ifs <;> simp [countSends])
        | simp [countSends]
  · rcases st with _ | n <;>
      simp only [runAttemptRest, genericRetry] <;>
      first
        | (split_ifs <;> simp [countSends])
        | simp [countSends]

theorem runAttemptRest_inl_status (s : AttemptSpec) (lastHash isLast : Bool) (st : Nat)
    (h : (runAttemptRest s lastHash isLast).2 = Sum.inl (some st)) : st = 1 := by
  rcases s with ⟨res, kw, fn⟩
  rcases res with k | w
  · rcases k with _ | _ | _ <;> rcases kw with _ | w2 <;>
      simp only [runAttemptRest, genericRetry] at h <;>
      split_ifs at h <;> simp_all
  · rcases w with _ | n <;>
      simp only [runAttemptRest, genericRetry] at h <;>
      split_ifs at h <;> simp_all

theorem runAttemptRest_fails_none (s : AttemptSpec) (lastHash isLast : Bool)
    (hf : attemptFails s = true) (r : Option Nat)
    (h : (runAttemptRest s lastHash isLast).2 = Sum.inl r) : r = none := by
  rcases s with ⟨res, kw, fn⟩
  rcases res with k | w
  · rcases k with _ | _ | _ <;> rcases kw with _ | w2 <;>
      simp only [runAttemptRest, genericRetry] at h <;>
      split_ifs at h <;> simp_all [attemptFails]
  · rcases w with _ | n <;>
      simp only [runAttemptRest, genericRetry] at h <;>
      split_ifs at h <;> simp_all [attemptFails]

theorem transfer_eth_loop_props (specs : List AttemptSpec) : ∀ nonce lastHash,
    countSends (transfer_eth_loop specs nonce lastHash).1 ≤ specs.length ∧
    (∀ st, (transfer_eth_loop specs nonce lastHash).2 = some st → st = 1) ∧
    (specs.all attemptFails = true → (transfer_eth_loop specs nonce lastHash).2 = none) := by
  induction specs with
  | nil =>
    intro nonce lh
    refine ⟨by simp [transfer_eth_loop, countSends], ?_, fun _ => rfl⟩
    intro st hst
    cases hst
  | cons s rest ih =>
    intro nonce lh
    rcases hr : (runAttemptRest s lh rest.isEmpty).2 with r | ⟨n2, lh2⟩
    · have hm : transfer_eth_loop (s :: rest) nonce lh =
          (Ev.send nonce :: (runAttemptRest s lh rest.isEmpty).1, r) := by
        simp only [transfer_eth_loop, runAttempt, hr]
      refine ⟨?_, ?_, ?_⟩
      · rw [hm, List.length_cons, countSends_cons_send, runAttemptRest_no_send]
        omega
      · intro st hst
        rw [hm] at hst
        have hst2 : r = some st := hst
        exact runAttemptRest_inl_status s lh rest.isEmpty st (by rw [hr, hst2])
      · intro hall
        rw [hm]
        have hf : attemptFails s = true := by
          simp only [List.all_cons, Bool.and_eq_true] at hall
          exact hall.1
        exact runAttemptRest_fails_none s lh rest.isEmpty hf r hr
    · have hm : transfer_eth_loop (s :: rest) nonce lh =
          (Ev.send nonce :: ((runAttemptRest s lh rest.isEmpty).1 ++
              (transfer_eth_loop rest n2 lh2).1),
            (transfer_eth_loop rest n2 lh2).2) := by
        simp only [transfer_eth_loop, runAttempt, hr, List.cons_append]
      refine ⟨?_, ?_, ?_⟩
      · rw [hm, List.length_cons, countSends_cons_send, countSends_append,
          runAttemptRest_no_send]
        have := (ih n2 lh2).1
        omega
      · intro st hst
        rw [hm] at hst
        exact (ih n2 lh2).2.1 st hst
      · intro hall
        rw [hm]
        simp only [List.all_cons, Bool.and_eq_true] at hall
        exact (ih n2 lh2).2.2 hall.2

/-- C5 (amended): `transfer_eth` makes at most `max_retries` submission
attempts; after a failed attempt that is not the last it refreshes the nonce
before retrying and, unless the failure was a nonce-too-low error (which
retries immediately after refreshing the nonce), also waits 5 seconds; it
returns a receipt only with status 1, returning as soon as an attempt yields
one, and returns `None` when all attempts have failed. -/
theorem claim_C5_transfer_eth_retries (specs : List AttemptSpec) (start_nonce : Nat) :
    countSends (transfer_eth specs start_nonce).1 ≤ specs.length ∧
    (∀ st, (transfer_eth specs start_nonce).2 = some st → st = 1) ∧
    (specs.all attemptFails = true → (transfer_eth specs start_nonce).2 = none) ∧
    (∀ s rest, specs = s :: rest → s.res = .waited (some 1) →
      transfer_eth specs start_nonce = ([Ev.send start_nonce], some 1)) ∧
    (∀ s nonce lastHash, attemptFails s = true →
      ((s.res = .sendErr .nonceTooLow →
        runAttempt s nonce lastHash false =
          ([Ev.send nonce, Ev.refreshNonce s.freshNonce],
            Sum.inr (s.freshNonce, lastHash))) ∧
       (s.res ≠ .sendErr .nonceTooLow →
        Ev.sleep5 ∈ (runAttempt s nonce lastHash false).1 ∧
        Ev.refreshNonce s.freshNonce ∈ (runAttempt s nonce lastHash false).1))) := by
  refine ⟨(transfer_eth_loop_props specs start_nonce false).1,
    (transfer_eth_loop_props specs start_nonce false).2.1,
    (transfer_eth_loop_props specs start_nonce false).2.2, ?_, ?_⟩
  · rintro s rest rfl hres
    rcases s with ⟨res, kw, fn⟩
    cases hres
    simp [transfer_eth, transfer_eth_loop, runAttempt, runAttemptRest]
  · intro s nonce lastHash hf
    rcases s with ⟨res, kw, fn⟩
    constructor
    · rintro rfl
      simp [runAttempt, runAttemptRest]
    · intro hne
      rcases res with k | w
      · rcases k with _ | _ | _
        · exact absurd rfl hne
        · rcases kw with _ | w2
          · simp [runAttempt, runAttemptRest, genericRetry]
          · have hw2 : w2 ≠ 1 := by
              intro he
              rw [he] at hf
              simp [attemptFails] at hf
            simp only [runAttempt, runAttemptRest, genericRetry]
            split_ifs <;> simp_all
        · simp [runAttempt, runAttemptRest, genericRetry]
      · rcases w with _ | n
        · simp [runAttempt, runAttemptRest, genericRetry]
        · have hn1 : n ≠ 1 := by
            intro he
            rw [he] at hf
            simp [attemptFails] at hf
          simp only [runAttempt, runAttemptRest, genericRetry]
          split_ifs <;> simp_all

/-- C5 witness: a single attempt failing with a generic error yields `None`. -/
theorem claim_C5_witness :
    (transfer_eth [⟨AttemptRes.sendErr ErrKind.other, none, 4⟩] 9).2 = none :=
  (claim_C5_transfer_eth_retries [⟨AttemptRes.sendErr ErrKind.other, none, 4⟩] 9).2.2.1
    (by decide)

/-- C5 counterexample: with two attempts where the first submission raises a
nonce-too-low error, the trace refreshes the nonce and immediately resubmits;
no 5-second sleep occurs between the failed non-final attempt and the retry,
contradicting the claim that every such retry waits 5 seconds. -/
theorem claim_C5_counterexample :
    transfer_eth
        [⟨AttemptRes.sendErr ErrKind.nonceTooLow, none, 7⟩,
         ⟨AttemptRes.waited (some 1), none, 0⟩] 5 =
      ([Ev.send 5, Ev.refreshNonce 7, Ev.send 7], some 1) ∧
    Ev.sleep5 ∉ [Ev.send 5, Ev.refreshNonce 7, Ev.send 7] := by
  decide

/-- C6: `get_transaction_counts` returns the maximum of every nonce value it
gathered (it bounds each gathered value and is itself one of them, hence at
least the latest confirmed count), and `transfer_eth`'s starting nonce is at
least the latest confirmed count, given that the re-fetched latest count
after cancellation is not below the earlier one (transaction counts are
monotone). -/
theorem claim_C6_nonce_never_reused (latest pending : Nat)
    (latest_direct pending_direct : Option Nat) (cancel_response_yes : Bool)
    (fresh_latest : Nat) (hfresh : latest ≤ fresh_latest) :
    (∀ x ∈ gathered_nonces latest pending latest_direct pending_direct,
      x ≤ get_transaction_counts latest pending latest_direct pending_direct) ∧
    get_transaction_counts latest pending latest_direct pending_direct ∈
      gathered_nonces latest pending latest_direct pending_direct ∧
    latest ≤ get_transaction_counts latest pending latest_direct pending_direct ∧
    latest ≤ choose_start_nonce latest pending cancel_response_yes fresh_latest := by
  refine ⟨fun x hx => list_max_le_of_mem _ x hx,
    list_max_mem _ (by simp [gathered_nonces]),
    list_max_le_of_mem _ latest (by simp [gathered_nonces]), ?_⟩
  unfold choose_start_nonce
  split_ifs with h1 h2 <;> omega

/-- C6 witness: the theorem applied at concrete nonce queries. -/
theorem claim_C6_witness :
    3 ≤ get_transaction_counts 3 5 (some 9) none ∧ 3 ≤ choose_start_nonce 3 5 true 4 := by
  have h := claim_C6_nonce_never_reused 3 5 (some 9) none true 4 (by norm_num)
  exact ⟨h.2.2.1, h.2.2.2⟩

/-- C7 (amended): with no usable gas limit and a failed estimation the
transaction is still built with the fallback gas (21000 for
`send_transaction`, 1000000 for `construct_blob_transaction`); a nonzero
supplied gas limit suppresses estimation and is used as supplied by
`send_transaction`, while `construct_blob_transaction` additionally caps it
at 2^24; a gas limit of 0 is falsy, so estimation still runs. -/
theorem claim_C7_gas_fallback (estimate_gas : Option Int) (chainId : Nat)
    (fromAddr toAddr : String) (value gas_price : Int) (nonce_arg : Option Nat)
    (remote_nonce : Nat) :
    send_transaction_gas none none = 21000 ∧
    send_transaction_gas (some 0) none = 21000 ∧
    (construct_blob_transaction chainId fromAddr toAddr value gas_price nonce_arg
        remote_nonce none none).gas = 1000000 ∧
    (construct_blob_transaction chainId fromAddr toAddr value gas_price nonce_arg
        remote_nonce (some 0) none).gas = 1000000 ∧
    (∀ v : Int, v ≠ 0 → send_transaction_gas (some v) estimate_gas = v) ∧
    (∀ v : Int, v ≠ 0 →
      (construct_blob_transaction chainId fromAddr toAddr value gas_price nonce_arg
          remote_nonce (some v) estimate_gas).gas =
        if v > OSAKA_GAS_LIMIT_CAP then OSAKA_GAS_LIMIT_CAP else v) := by
  refine ⟨rfl, rfl,
    by norm_num [construct_blob_transaction, truthy, OSAKA_GAS_LIMIT_CAP],
    by norm_num [construct_blob_transaction, truthy, OSAKA_GAS_LIMIT_CAP], ?_, ?_⟩
  · intro v hv
    simp [send_transaction_gas, truthy, hv]
  · intro v hv
    simp [construct_blob_transaction, truthy, hv]

/-- C7 witness: a supplied nonzero gas limit of 50000 is used as-is by both
functions (it is below the Osaka cap). -/
theorem claim_C7_witness :
    send_transaction_gas (some 50000) none = 50000 ∧
    (construct_blob_transaction 1 "f" "t" 0 1 none 0 (some 50000) none).gas = 50000 := by
  have h := claim_C7_gas_fallback none 1 "f" "t" 0 1 none 0
  refine ⟨h.2.2.2.2.1 50000 (by norm_num), ?_⟩
  rw [h.2.2.2.2.2 50000 (by norm_num)]
  norm_num [OSAKA_GAS_LIMIT_CAP]

/-- C7 counterexample: the claim that a supplied gas limit is always used
as-is with no estimation fails: a supplied gas limit of 2^24 + 1 = 16777217
is capped to 2^24 by `construct_blob_transaction`, and a supplied gas limit
of 0 is falsy, so `send_transaction` still uses the estimation result. -/
theorem claim_C7_counterexample :
    (construct_blob_transaction 1 "f" "t" 0 1 none 0 (some 16777217) none).gas
        = 16777216 ∧
    (16777216 : Int) ≠ 16777217 ∧
    send_transaction_gas (some 0) (some 777) = 777 := by
  refine ⟨?_, by norm_num, rfl⟩
  norm_num [construct_blob_transaction, truthy, OSAKA_GAS_LIMIT_CAP]

/-- C8 (amended): `send_consolidation_transaction` raises `ValueError` before
signing if and only if the concatenated pubkey data's length in hex
characters, integer-divided by 2, differs from 96 — i.e. for every length
other than 192 or 193 characters; it signs and submits, with the
concatenated data, exactly when that quotient is 96. -/
theorem claim_C8_consolidation_length_check (validator_pubkey target_pubkey : List Char) :
    ((∃ e, send_consolidation_transaction validator_pubkey target_pubkey = .error e) ↔
      (validator_pubkey.length + target_pubkey.length) / 2 ≠ 96) ∧
    (send_consolidation_transaction validator_pubkey target_pubkey =
        .ok ('0' :: 'x' :: (validator_pubkey ++ target_pubkey)) ↔
      (validator_pubkey.length + target_pubkey.length) / 2 = 96) := by
  have hstrip : remove_0x_prefix ('0' :: 'x' :: (validator_pubkey ++ target_pubkey)) =
      validator_pubkey ++ target_pubkey := rfl
  unfold send_consolidation_transaction
  dsimp only
  rw [hstrip]
  simp only [List.length_append]
  split_ifs with h <;> simp [h] <;> omega

/-- C8 counterexample: a concatenation of 96 + 97 = 193 hex characters is not
exactly 96 bytes (192 hex characters), yet `total_bytes = 193 // 2 = 96`, so
the function proceeds to sign and submit instead of raising `ValueError`. -/
theorem claim_C8_counterexample :
    send_consolidation_transaction (List.replicate 96 'a') (List.replicate 97 'b') =
      .ok ('0' :: 'x' :: (List.replicate 96 'a' ++ List.replicate 97 'b')) ∧
    ((List.replicate 96 'a' ++ List.replicate 97 'b' : List Char)).length ≠ 192 := by
  constructor
  · have hlen : ((List.replicate 96 'a' ++ List.replicate 97 'b' : List Char)).length
        = 193 := by
      rw [List.length_append, List.length_replicate, List.length_replicate]
    unfold send_consolidation_transaction
    dsimp only
    rw [show remove_0x_prefix
        ('0' :: 'x' :: (List.replicate 96 'a' ++ List.replicate 97 'b')) =
      List.replicate 96 'a' ++ List.replicate 97 'b' from rfl, hlen]
    norm_num
  · rw [List.length_append, List.length_replicate, List.length_replicate]
    norm_num

/-- C9: `validate_osaka_params` raises for `number_of_blobs = 0` regardless
of all other arguments, in particular for the accepted `--tx-type` value
`0x2`, so no zero-blob transaction passes Osaka validation. -/
theorem claim_C9_zero_blobs_always_rejected (value : Int) (gas_limit : Option Int) :
    raises (validate_osaka_params "0x2" value 0 gas_limit) = true ∧
    "0x2" ∈ tx_type_choices := by
  refine ⟨?_, by simp [tx_type_choices]⟩
  unfold validate_osaka_params OSAKA_MAX_BLOBS_PER_TX
  norm_num [raises]

/-! ## Account generation lemmas -/

theorem hexChar_lt16_isHexDigit (m : Nat) (hm : m < 16) :
    isHexDigitChar (hexChar m) = true := by
  have h : ∀ k : Fin 16, isHexDigitChar (hexChar k.val) = true := by decide
  exact h ⟨m, hm⟩

theorem byteToHexChars_hex (b : Fin 256) :
    ∀ c ∈ byteToHexChars b, isHexDigitChar c = true := by
  intro c hc
  rcases List.mem_cons.mp hc with rfl | hc2
  · exact hexChar_lt16_isHexDigit _ (Nat.div_lt_of_lt_mul b.isLt)
  · rcases List.mem_cons.mp hc2 with rfl | hc3
    · exact hexChar_lt16_isHexDigit _ (Nat.mod_lt _ (by norm_num))
    · cases hc3

theorem token_hex_length (bs : List (Fin 256)) : (token_hex bs).length = 2 * bs.length := by
  induction bs with
  | nil => rfl
  | cons b rest ih =>
    show (byteToHexChars b ++ token_hex rest).length = 2 * (b :: rest).length
    have hb : (byteToHexChars b).length = 2 := rfl
    rw [List.length_append, ih, hb, List.length_cons]
    omega

theorem token_hex_hex (bs : List (Fin 256)) :
    ∀ c ∈ token_hex bs, isHexDigitChar c = true := by
  induction bs with
  | nil => intro c hc; cases hc
  | cons b rest ih =>
    intro c hc
    simp only [token_hex, List.map_cons, List.flatten_cons, List.mem_append] at hc
    rcases hc with hc | hc
    · exact byteToHexChars_hex b c hc
    · exact ih c hc

/-- C10: `generate_multiple_accounts n` returns exactly `n` accounts; every
account is a dictionary with exactly the keys `private_key` and `public_key`,
and its `private_key` value is the string `0x` followed by exactly 64
hexadecimal characters (given that each `secrets.token_hex(32)` call encodes
32 random bytes). -/
theorem claim_C10_generate_accounts (num_accounts : Nat) (rand : Nat → List (Fin 256))
    (derive_address : List Char → String)
    (hlen : ∀ i, (rand i).length = 32) :
    (generate_multiple_accounts num_accounts rand derive_address).length = num_accounts ∧
    (∀ a ∈ generate_multiple_accounts num_accounts rand derive_address,
      ∃ pk addr, a = [("private_key", pk), ("public_key", addr)] ∧
        ∃ body : List Char, pk = String.mk ('0' :: 'x' :: body) ∧
          body.length = 64 ∧ ∀ c ∈ body, isHexDigitChar c = true) := by
  constructor
  · simp [generate_multiple_accounts]
  · intro a ha
    simp only [generate_multiple_accounts, List.mem_map, List.mem_range] at ha
    rcases ha with ⟨i, _, rfl⟩
    refine ⟨String.mk ('0' :: 'x' :: token_hex (rand i)),
      derive_address ('0' :: 'x' :: token_hex (rand i)), rfl,
      token_hex (rand i), rfl, ?_, token_hex_hex (rand i)⟩
    rw [token_hex_length, hlen]

/-- C10 witness: the theorem applied to a single account drawn from a
concrete byte stream. -/
theorem claim_C10_witness :
    (generate_multiple_accounts 1 (fun _ => List.replicate 32 (0 : Fin 256))
      (fun _ => "addr")).length = 1 :=
  (claim_C10_generate_accounts 1 (fun _ => List.replicate 32 (0 : Fin 256))
    (fun _ => "addr") (fun _ => by simp)).1

end EthTools
